import Mathlib

/-!
A shallow embedding of beanstool's `cli/monitor.go`.

The monitor command of beanstool lists the tubes of a beanstalkd broker,
fetches the counter snapshot of every tube, converts it to a `TubeStats`
record and prints one table row per tube.

Modelling conventions.

* Go `string` is `String`; Go `int` is `Int`, a 64-bit `int` being one that
  satisfies `InIntRange`. The only arithmetic the file performs on an `int`
  is `l - len(value)` in `addStyle`; it is modelled by `subLen`, which wraps
  around where the 64-bit subtraction does. The range check of
  `strconv.Atoi` is kept.
* A Go `map[string]T` is an association list read with `List.lookup`.
* A Go function returning `(T, error)` that can also panic returns an
  `Outcome T`: the value, the returned error, or the panic value.
* The broker connection is a state-passing oracle `Conn σ`; the colour
  library and the table library are parameters.
-/

namespace Beanstool

/-! ## Errors and outcomes -/

/-- The two causes a `*strconv.NumError` can carry. -/
inductive NumErrKind where
  | ErrSyntax
  | ErrRange
  deriving DecidableEq, Repr

/-- Go's `strconv.NumError`: the failing function, the input, the cause. -/
structure NumError where
  Func : String
  Num : String
  Err : NumErrKind
  deriving DecidableEq, Repr

/-- Values of Go's `error` interface that reach this file: the package's own
`TubeStatsRetrievalError`, and whatever the beanstalk library reports. -/
inductive Error where
  | TubeStatsRetrievalError
  | broker (msg : String)
  deriving DecidableEq, Repr

/-- Result of a Go call of type `(T, error)` that may panic. -/
inductive Outcome (α : Type) where
  | ok (v : α)
  | err (e : Error)
  | panic (e : NumError)
  deriving DecidableEq, Repr

deriving instance DecidableEq for Except

/-- Sequencing: an error return or a panic of the first step skips the rest. -/
def Outcome.bind {α β : Type} (x : Outcome α) (f : α → Outcome β) : Outcome β :=
  match x with
  | .ok v => f v
  | .err e => .err e
  | .panic e => .panic e

/-! ## `strconv` -/

/-- `strconv.IntSize` on a 64-bit platform. -/
def intSize : Nat := 64

/-- Largest `uint64`. -/
def maxUint64 : Nat := 2 ^ 64 - 1

/-- The digit loop of `strconv.ParseUint(s, 10, 64)`: a byte that is not a
decimal digit is a syntax error, an accumulator that leaves `uint64` a range
error, whichever comes first. -/
def parseUintLoop : List Char → Nat → Except NumErrKind Nat
  | [], n => .ok n
  | c :: cs, n =>
    if 48 ≤ c.toNat ∧ c.toNat ≤ 57 then
      if n ≥ maxUint64 / 10 + 1 then .error .ErrRange
      else
        let n1 := n * 10 + (c.toNat - 48)
        if n1 > maxUint64 then .error .ErrRange else parseUintLoop cs n1
    else .error .ErrSyntax

/-- `strconv.ParseUint(s, 10, 64)` without the error wrapper. On a range error
Go returns the value `maxUint64` next to the error. -/
def ParseUint (s : List Char) : Except NumErrKind Nat :=
  match s with
  | [] => .error .ErrSyntax
  | _ => parseUintLoop s 0

/-- `strconv.ParseInt(s, 10, 0)` without the error wrapper: an optional sign,
then `ParseUint`, then the range check against `2 ^ (intSize - 1)`. -/
def ParseInt (s : List Char) : Except NumErrKind Int :=
  match s with
  | [] => .error .ErrSyntax
  | c :: cs =>
    let neg := c == '-'
    let body := if c == '+' ∨ c == '-' then cs else c :: cs
    match ParseUint body with
    | .error .ErrSyntax => .error .ErrSyntax
    | .error .ErrRange => .error .ErrRange
    | .ok un =>
      let cutoff : Nat := 2 ^ (intSize - 1)
      if ¬ neg ∧ un ≥ cutoff then .error .ErrRange
      else if neg ∧ un > cutoff then .error .ErrRange
      else .ok (if neg then - (un : Int) else (un : Int))

/-- `strconv.Atoi`: documented as `ParseInt(s, 10, 0)` converted to `int`, the
error naming `Atoi` and the whole input. -/
def Atoi (s : String) : Except NumError Int :=
  match ParseInt s.data with
  | .ok n => .ok n
  | .error k => .error { Func := "Atoi", Num := s, Err := k }

/-- The digits written by `strconv.formatBits` for base 10, least significant
first into the front of `acc`; `fuel` bounds the number of digits. -/
def formatBits : Nat → Nat → List Char → List Char
  | 0, _, acc => acc
  | fuel + 1, u, acc =>
    if u < 10 then Char.ofNat (48 + u) :: acc
    else formatBits fuel (u / 10) (Char.ofNat (48 + u % 10) :: acc)

/-- `strconv.Itoa`: the decimal digits of the magnitude, after a minus sign for
a negative number. -/
def Itoa (i : Int) : String :=
  if i < 0 then ⟨'-' :: formatBits (i.natAbs + 1) i.natAbs []⟩
  else ⟨formatBits (i.natAbs + 1) i.natAbs []⟩

/-! ## Tube statistics -/

/-- The record `TubeStats`. -/
structure TubeStats where
  JobsBuried : Int
  JobsDelayed : Int
  JobsReady : Int
  JobsReserved : Int
  JobsUrgent : Int
  Waiting : Int
  TotalJobs : Int
  deriving DecidableEq, Repr

/-- A `map[string]string` as returned by `Tube.Stats`. -/
abbrev Snapshot := List (String × String)

/-- Go's `s[key]` on a `map[string]string`: the empty string when absent. -/
def Snapshot.index (s : Snapshot) (key : String) : String :=
  match s.lookup key with
  | some v => v
  | none => ""

/-- `mustConvertToInt`: `strconv.Atoi`, panicking with its error. -/
def mustConvertToInt (s : String) : Outcome Int :=
  match Atoi s with
  | .ok i => .ok i
  | .error e => .panic e

/-- The beanstalk connection seen from this file: listing the tubes and
fetching the statistics of one tube, each a step on the broker state. -/
structure Conn (σ : Type) where
  ListTubes : σ → Except Error (List String) × σ
  Stats : String → σ → Except Error Snapshot × σ

/-- Lines 146-158 of `GetStatsForTube`: the check of the `name` entry and the
composite literal, whose fields Go evaluates in the order they are written
(buried, ready, delayed, reserved, urgent, waiting, total). -/
def statsOfSnapshot (tube : String) (s : Snapshot) : Outcome TubeStats :=
  match s.lookup "name" with
  | none => .err .TubeStatsRetrievalError
  | some name =>
    if name ≠ tube then .err .TubeStatsRetrievalError
    else
      (mustConvertToInt (s.index "current-jobs-buried")).bind fun buried =>
      (mustConvertToInt (s.index "current-jobs-ready")).bind fun ready =>
      (mustConvertToInt (s.index "current-jobs-delayed")).bind fun delayed =>
      (mustConvertToInt (s.index "current-jobs-reserved")).bind fun reserved =>
      (mustConvertToInt (s.index "current-jobs-urgent")).bind fun urgent =>
      (mustConvertToInt (s.index "current-waiting")).bind fun waiting =>
      (mustConvertToInt (s.index "total-jobs")).bind fun total =>
      .ok { JobsBuried := buried, JobsReady := ready, JobsDelayed := delayed,
            JobsReserved := reserved, JobsUrgent := urgent, Waiting := waiting,
            TotalJobs := total }

/-- `Monitor.GetStatsForTube`: fetch the snapshot of `tube`, return the
library's error if there is one, otherwise convert the snapshot. -/
def GetStatsForTube {σ : Type} (c : Conn σ) (tube : String) (st : σ) :
    Outcome TubeStats × σ :=
  match c.Stats tube st with
  | (.error e, st1) => (.err e, st1)
  | (.ok s, st1) => (statsOfSnapshot tube s, st1)

/-! ## Styling -/

/-- The constant `HighSeverity` (`iota` = 0). -/
def HighSeverity : Int := 0

/-- The constant `NormalSeverity`. -/
def NormalSeverity : Int := 1

/-- The constant `LowSeverity`. -/
def LowSeverity : Int := 2

/-- The two package-level styles, each given by its `Paint` method (from the
`gocolorize` library, which wraps the text in terminal escape codes). -/
structure Styles where
  HighSeverityStyle : String → String
  NormalSeverityStyle : String → String

/-- `strings.Repeat(s, count)`, documented to panic only when `count` is
negative or `len(s) * count` overflows; `addStyle` calls it with one space and
a positive count, for which it returns the text below. Memory is not part of
the model: asked for more than the machine can allocate, the Go call ends in a
panic instead. -/
def Repeat (s : String) (count : Int) : String :=
  ⟨(List.replicate count.toNat s.data).flatten⟩

/-- The subtraction `l - n` of a length from an `int`, as the 64-bit machine
computes it. For an `int` `l` and a length `n` the exact difference never
exceeds the largest `int`; when it falls below the smallest one, `-2 ^ 63`, the
result wraps around by `2 ^ 64` and comes out positive. -/
def subLen (l : Int) (n : Nat) : Int :=
  if l - (n : Int) < -(2 : Int) ^ 63 then l - (n : Int) + 2 ^ 64 else l - (n : Int)

/-- `addStyle`. `len(value)` counts bytes; `strconv.Itoa` writes one byte per
character. A `switch` without `default` falls through to the plain return. -/
def addStyle (P : Styles) (i : Int) (l : Int) (severity : Int) : String :=
  let value := Itoa i
  let needs := subLen l value.length
  if needs ≤ 0 then value
  else
    let padded := value ++ Repeat " " needs
    if i > 0 then
      if severity = HighSeverity then P.HighSeverityStyle padded
      else if severity = NormalSeverity then P.NormalSeverityStyle padded
      else padded
    else padded

/-- `Monitor.buildLineFromTubeStats`: eight appends to an empty slice. -/
def buildLineFromTubeStats (P : Styles) (name : String) (s : TubeStats) : List String :=
  let l : List String := []
  let l := l ++ [name]
  let l := l ++ [addStyle P s.JobsBuried 10 HighSeverity]
  let l := l ++ [addStyle P s.JobsDelayed 10 NormalSeverity]
  let l := l ++ [addStyle P s.JobsReady 10 NormalSeverity]
  let l := l ++ [addStyle P s.JobsReserved 10 NormalSeverity]
  let l := l ++ [addStyle P s.JobsUrgent 10 NormalSeverity]
  let l := l ++ [addStyle P s.Waiting 10 LowSeverity]
  let l := l ++ [addStyle P s.TotalJobs 10 LowSeverity]
  l

/-! ## Collecting the statistics of all tubes -/

/-- The `map[string]*TubeStats` built by `GetStats`; every `*TubeStats` is a
fresh record, so the map holds the records themselves. -/
abbrev StatsTable := List (String × TubeStats)

/-- Go's `stats[tube] = s`: overwrite the entry of `tube`, or add one. -/
def StatsTable.set : StatsTable → String → TubeStats → StatsTable
  | [], k, v => [(k, v)]
  | (k1, v1) :: rest, k, v =>
    if k1 = k then (k, v) :: rest else (k1, v1) :: StatsTable.set rest k v

/-- The `for _, tube := range tubes` loop of `GetStats`: a slice is ranged in
index order; the first error return (or panic) of `GetStatsForTube` leaves the
loop, and the function, at once. -/
def collectTubes {σ : Type} (c : Conn σ) :
    List String → StatsTable → σ → Outcome StatsTable × σ
  | [], stats, st => (.ok stats, st)
  | tube :: rest, stats, st =>
    match GetStatsForTube c tube st with
    | (.ok s, st1) => collectTubes c rest (stats.set tube s) st1
    | (.err e, st1) => (.err e, st1)
    | (.panic e, st1) => (.panic e, st1)

/-- `Monitor.GetStats`. An error outcome stands for the pair `(nil, err)`. -/
def GetStats {σ : Type} (c : Conn σ) (st : σ) : Outcome StatsTable × σ :=
  match c.ListTubes st with
  | (.error e, st1) => (.err e, st1)
  | (.ok tubes, st1) => collectTubes c tubes [] st1

/-! ## Printing -/

/-- What `termtable` has been handed: the header and the rows, in the order of
the `AddRow` calls. -/
structure Table where
  header : List String
  rows : List (List String)
  deriving DecidableEq, Repr

/-- `termtable.NewTable(nil, ...)`. -/
def NewTable : Table := { header := [], rows := [] }

/-- `Table.SetHeader`. -/
def Table.SetHeader (t : Table) (h : List String) : Table := { t with header := h }

/-- `Table.AddRow`. -/
def Table.AddRow (t : Table) (r : List String) : Table := { t with rows := t.rows ++ [r] }

/-- An order in which `for t, s := range stats` may visit a map: Go leaves the
order unspecified, so every arrangement of the entries is admissible. -/
def IsRangeOrder (order : StatsTable → List (String × TubeStats)) : Prop :=
  ∀ m : StatsTable, (order m).Perm m

/-- Lines 68-79 of `PrintStats`: a new table, the header, and one `AddRow` per
entry of `stats` in the order the `range` statement visits them. -/
def tableOfStats (P : Styles) (order : StatsTable → List (String × TubeStats))
    (stats : StatsTable) : Table :=
  (order stats).foldl (fun table ts => table.AddRow (buildLineFromTubeStats P ts.1 ts.2))
    (NewTable.SetHeader
      ["Name", "Buried", "Delayed", "Ready", "Reserved", "Urgent", "Waiting", "Total"])

/-- `Monitor.PrintStats`: the outcome, the broker state, and the lines written
to standard output. `Render` is the table library's drawing function. -/
def PrintStats {σ : Type} (c : Conn σ) (P : Styles)
    (order : StatsTable → List (String × TubeStats)) (Render : Table → String) (st : σ) :
    Outcome Unit × σ × List String :=
  match GetStats c st with
  | (.err e, st1) => (.err e, st1, [])
  | (.panic e, st1) => (.panic e, st1, [])
  | (.ok stats, st1) => (.ok (), st1, [Render (tableOfStats P order stats)])

/-- The styles with colours switched off: `Paint` returns its argument. -/
def plainStyles : Styles := { HighSeverityStyle := id, NormalSeverityStyle := id }

/-- Styles that mark the painted text, to tell styled cells from plain ones. -/
def markStyles : Styles :=
  { HighSeverityStyle := fun t => "<H>" ++ t ++ "</>",
    NormalSeverityStyle := fun t => "<N>" ++ t ++ "</>" }

/-- A broker that answers from a fixed list of per-tube replies and logs every
request in its state. -/
def stubConn (tubes : Except Error (List String))
    (replies : List (String × Except Error Snapshot)) : Conn (List String) :=
  { ListTubes := fun log => (tubes, log ++ ["list-tubes"]),
    Stats := fun tube log =>
      (match replies.lookup tube with
        | some r => r
        | none => .error (.broker "NOT_FOUND"),
       log ++ ["stats-tube " ++ tube]) }

/-- A snapshot with the given name and the seven counters. -/
def snapshotOf (name : String) (b d r rs u w t : String) : Snapshot :=
  [("name", name), ("current-jobs-buried", b), ("current-jobs-delayed", d),
   ("current-jobs-ready", r), ("current-jobs-reserved", rs), ("current-jobs-urgent", u),
   ("current-waiting", w), ("total-jobs", t)]

/-- The snapshot of the tube `default` used in the examples. -/
def defaultSnapshot : Snapshot := snapshotOf "default" "0" "2" "5" "0" "1" "3" "8"

/-- A broker with the two tubes `default` and `urgent-jobs`. -/
def demoConn : Conn (List String) :=
  stubConn (.ok ["default", "urgent-jobs"])
    [("default", .ok defaultSnapshot),
     ("urgent-jobs", .ok (snapshotOf "urgent-jobs" "1" "0" "7" "2" "0" "0" "12"))]

/-- A broker whose reply for `default` names the tube but has no counters, and
whose reply for `jobs` names another tube and has unreadable counters. -/
def brokenConn : Conn (List String) :=
  stubConn (.ok ["urgent-jobs", "default", "jobs"])
    [("urgent-jobs", .ok (snapshotOf "urgent-jobs" "1" "0" "7" "2" "0" "0" "12")),
     ("default", .ok [("name", "default")]),
     ("jobs", .ok (snapshotOf "other" "x" "" "-" "1e3" "0x10" "1_000" " 7"))]

/-- A run of `n` spaces. -/
def spaces (n : Nat) : String := ⟨List.replicate n ' '⟩

/-- The text `t` followed by `max 0 (width - len t)` spaces: `t` right-padded
to `width`, and `t` itself when it is already that long. -/
def rightPad (t : String) (width : Int) : String :=
  t ++ spaces (max 0 (width - (t.length : Int))).toNat

/-- A snapshot with all the counters but no `name` entry. -/
def namelessSnapshot : Snapshot :=
  [("current-jobs-buried", "1"), ("current-jobs-delayed", "0"),
   ("current-jobs-ready", "7"), ("current-jobs-reserved", "2"),
   ("current-jobs-urgent", "0"), ("current-waiting", "0"), ("total-jobs", "12")]

/-- A broker with three tubes whose reply for the second one, `urgent-jobs`,
has all the counters but no `name` entry. -/
def namelessConn : Conn (List String) :=
  stubConn (.ok ["default", "urgent-jobs", "jobs"])
    [("default", .ok defaultSnapshot),
     ("urgent-jobs", .ok namelessSnapshot),
     ("jobs", .ok (snapshotOf "jobs" "0" "0" "0" "0" "0" "0" "0"))]

/-- Byte-wise lexicographic `a ≤ b`, the order of Go's string comparison. -/
def leChars : List Char → List Char → Bool
  | [], _ => true
  | _ :: _, [] => false
  | a :: as, b :: bs => a.toNat < b.toNat || (a.toNat == b.toNat && leChars as bs)

/-- The names are in ascending order. -/
def Ascending (names : List String) : Prop :=
  names.Pairwise fun a b => leChars a.data b.data = true

instance (names : List String) : Decidable (Ascending names) := by
  unfold Ascending
  infer_instance

/-- The first cell of every row handed to the table. -/
def rowNames (t : Table) : List String := t.rows.map fun r => r.headD ""

/-- The table `GetStats` builds from `demoConn`. -/
def demoTable : StatsTable :=
  [("default", { JobsBuried := 0, JobsDelayed := 2, JobsReady := 5, JobsReserved := 0,
                 JobsUrgent := 1, Waiting := 3, TotalJobs := 8 }),
   ("urgent-jobs", { JobsBuried := 1, JobsDelayed := 0, JobsReady := 7, JobsReserved := 2,
                     JobsUrgent := 0, Waiting := 0, TotalJobs := 12 })]

/-- The counter keys in the order `GetStatsForTube` converts them. -/
def counterKeys : List String :=
  ["current-jobs-buried", "current-jobs-ready", "current-jobs-delayed",
   "current-jobs-reserved", "current-jobs-urgent", "current-waiting", "total-jobs"]

/-- The snapshot holds `key`, and its value is a numeral that `strconv.Atoi`
reads as `n`. -/
def HasCounter (s : Snapshot) (key : String) (n : Int) : Prop :=
  ∃ v, s.lookup key = some v ∧ Atoi v = .ok n

/-- The snapshot lacks `key`, or holds a value that `strconv.Atoi` rejects. -/
def BadCounter (s : Snapshot) (key : String) : Prop :=
  s.lookup key = none ∨ ∃ v e, s.lookup key = some v ∧ Atoi v = .error e

/-- The `strconv` error of the first counter, in conversion order, that
`strconv.Atoi` rejects. -/
def firstBadCounter (s : Snapshot) : Option NumError :=
  counterKeys.findSome? fun k =>
    match Atoi (s.index k) with
    | .error e => some e
    | .ok _ => none

/-- A Go `int` on a 64-bit platform. -/
def InIntRange (n : Int) : Prop := -(2 : Int) ^ 63 ≤ n ∧ n ≤ 2 ^ 63 - 1

/-- `Monitor.Init`: dial `Host` and keep the connection. The receiver is its
`Host` before the call and the connection after it; `Dial` is
`beanstalk.Dial("tcp", _)`. -/
def Init {σ : Type} (Dial : String → Except Error σ) (Host : String) : Except Error σ :=
  match Dial Host with
  | .error e => .error e
  | .ok conn => .ok conn

/-- `Monitor.Execute`: `Init`, then `PrintStats`; the error of either is
returned as it is. The result holds the outcome, the connection if one was
made, and the lines written to standard output. -/
def Execute {σ : Type} (Dial : String → Except Error σ) (c : Conn σ) (P : Styles)
    (order : StatsTable → List (String × TubeStats)) (Render : Table → String)
    (Host : String) (_args : List String) : Outcome Unit × Option σ × List String :=
  match Init Dial Host with
  | .error e => (.err e, none, [])
  | .ok st =>
    match PrintStats c P order Render st with
    | (.err e, st1, out) => (.err e, some st1, out)
    | (.panic e, st1, out) => (.panic e, some st1, out)
    | (.ok (), st1, out) => (.ok (), some st1, out)

/-- A broker whose tube `default` reports a negative buried count, and whose
tube `jobs` reports an empty ready count. -/
def oddConn : Conn (List String) :=
  stubConn (.ok ["default", "jobs"])
    [("default", .ok (snapshotOf "default" "-3" "2" "5" "0" "1" "3" "8")),
     ("jobs", .ok (snapshotOf "jobs" "0" "0" "" "0" "0" "0" "0"))]

/-- A broker that cannot list its tubes. -/
def downConn : Conn (List String) :=
  stubConn (.error (.broker "EOF")) [("default", .ok defaultSnapshot)]

/-- A dialler that reaches the broker, handing back an empty request log. -/
def dialOk : String → Except Error (List String) := fun _ => .ok []

/-- A dialler that finds nobody listening. -/
def dialRefused : String → Except Error (List String) :=
  fun _ => .error (.broker "connection refused")

/-- A stand-in for the drawing function of the table library: the cells of
every row joined by bars, the rows joined by line breaks. -/
def renderBars (t : Table) : String :=
  "\n".intercalate ((t.header :: t.rows).map fun r => "|".intercalate r)

/-- Every field of the record is a Go `int`. -/
def TubeStats.InRange (v : TubeStats) : Prop :=
  InIntRange v.JobsBuried ∧ InIntRange v.JobsDelayed ∧ InIntRange v.JobsReady ∧
    InIntRange v.JobsReserved ∧ InIntRange v.JobsUrgent ∧ InIntRange v.Waiting ∧
    InIntRange v.TotalJobs

/-- The snapshot names `tube` and holds, under each counter key, the decimal
string `strconv.Itoa` writes for the matching field of `v`. -/
def Snapshot.Prints (s : Snapshot) (tube : String) (v : TubeStats) : Prop :=
  s.lookup "name" = some tube ∧
    s.lookup "current-jobs-buried" = some (Itoa v.JobsBuried) ∧
    s.lookup "current-jobs-delayed" = some (Itoa v.JobsDelayed) ∧
    s.lookup "current-jobs-ready" = some (Itoa v.JobsReady) ∧
    s.lookup "current-jobs-reserved" = some (Itoa v.JobsReserved) ∧
    s.lookup "current-jobs-urgent" = some (Itoa v.JobsUrgent) ∧
    s.lookup "current-waiting" = some (Itoa v.Waiting) ∧
    s.lookup "total-jobs" = some (Itoa v.TotalJobs)

/-- The text `t` occurs, whole and in one piece, in `u`. -/
def Contains (u t : String) : Prop := t.data <:+: u.data

/-- The record read from `defaultSnapshot`. -/
def defaultStats : TubeStats :=
  { JobsBuried := 0, JobsDelayed := 2, JobsReady := 5, JobsReserved := 0,
    JobsUrgent := 1, Waiting := 3, TotalJobs := 8 }

/-- The record read from the snapshot of `urgent-jobs` in `demoConn`. -/
def urgentStats : TubeStats :=
  { JobsBuried := 1, JobsDelayed := 0, JobsReady := 7, JobsReserved := 2,
    JobsUrgent := 0, Waiting := 0, TotalJobs := 12 }

/-- The record read from the snapshot of `default` in `oddConn`. -/
def oddStats : TubeStats :=
  { JobsBuried := -3, JobsDelayed := 2, JobsReady := 5, JobsReserved := 0,
    JobsUrgent := 1, Waiting := 3, TotalJobs := 8 }

/-- The tubes of the list, requested one after the other from the broker state
`st`, are each fetched and parsed successfully, and the last request leaves the
broker in the state `st2`. -/
def FetchedAll {σ : Type} (c : Conn σ) : List String → σ → σ → Prop
  | [], st, st2 => st2 = st
  | t :: rest, st, st2 =>
    ∃ v st1, GetStatsForTube c t st = (.ok v, st1) ∧ FetchedAll c rest st1 st2

/-- A broker that lists three tubes and has no statistics for the second
one, `ghost`: the request for it fails with `NOT_FOUND`. -/
def ghostConn : Conn (List String) :=
  stubConn (.ok ["default", "ghost", "jobs"])
    [("default", .ok defaultSnapshot),
     ("jobs", .ok (snapshotOf "jobs" "0" "0" "0" "0" "0" "0" "0"))]

/-- A broker that answers like `demoConn` once a request has been made, and
refuses a statistics request that comes first. -/
def flakyConn : Conn (List String) :=
  { ListTubes := demoConn.ListTubes,
    Stats := fun tube log =>
      if log = [] then (.error (.broker "OUT_OF_ORDER"), log ++ ["stats-tube " ++ tube])
      else demoConn.Stats tube log }

/-! ## Lemmas -/

theorem Atoi_empty : Atoi "" = .error { Func := "Atoi", Num := "", Err := .ErrSyntax } := by
  decide

theorem index_of_lookup {s : Snapshot} {key v : String} (h : s.lookup key = some v) :
    s.index key = v := by
  simp [Snapshot.index, h]

theorem mustConvertToInt_of_hasCounter {s : Snapshot} {key : String} {n : Int}
    (h : HasCounter s key n) : mustConvertToInt (s.index key) = .ok n := by
  obtain ⟨v, hv, hn⟩ := h
  simp [mustConvertToInt, index_of_lookup hv, hn]

theorem Atoi_index_of_bad {s : Snapshot} {key : String} (h : BadCounter s key) :
    ∃ e, Atoi (s.index key) = .error e := by
  rcases h with h | ⟨v, e, hv, he⟩
  · exact ⟨_, by simpa [Snapshot.index, h] using Atoi_empty⟩
  · exact ⟨e, by simpa [index_of_lookup hv] using he⟩

/-- With a matching `name`, the conversion panics exactly with the error of the
first rejected counter, and succeeds when there is none. -/
theorem statsOfSnapshot_firstBad (tube : String) (s : Snapshot)
    (hname : s.lookup "name" = some tube) :
    match firstBadCounter s with
    | some e => statsOfSnapshot tube s = .panic e
    | none => ∃ v, statsOfSnapshot tube s = .ok v := by
  simp only [statsOfSnapshot, hname, firstBadCounter, counterKeys, mustConvertToInt,
    List.findSome?]
  cases h1 : Atoi (s.index "current-jobs-buried") <;>
  cases h2 : Atoi (s.index "current-jobs-ready") <;>
  cases h3 : Atoi (s.index "current-jobs-delayed") <;>
  cases h4 : Atoi (s.index "current-jobs-reserved") <;>
  cases h5 : Atoi (s.index "current-jobs-urgent") <;>
  cases h6 : Atoi (s.index "current-waiting") <;>
  cases h7 : Atoi (s.index "total-jobs") <;>
  simp [Outcome.bind]

theorem firstBadCounter_isSome_of_bad (s : Snapshot) (k : String) (hk : k ∈ counterKeys)
    (hbad : BadCounter s k) : ∃ e, firstBadCounter s = some e := by
  obtain ⟨e, he⟩ := Atoi_index_of_bad hbad
  have : (firstBadCounter s).isSome = true := by
    rw [firstBadCounter, List.findSome?_isSome_iff]
    exact ⟨k, hk, by simp [he]⟩
  exact Option.isSome_iff_exists.mp this

theorem Repeat_space (n : Int) : Repeat " " n = spaces n.toNat := by
  have h : ∀ k : Nat, (List.replicate k [' ']).flatten = List.replicate k ' ' := by
    intro k
    induction k with
    | zero => rfl
    | succ k ih => simp [List.replicate_succ, ih]
  simp only [Repeat, spaces]
  exact congrArg String.mk (h n.toNat)

theorem rightPad_of_le (t : String) (width : Int) (h : width - (t.length : Int) ≤ 0) :
    rightPad t width = t := by
  have h0 : (max 0 (width - (t.length : Int))).toNat = 0 := by omega
  rw [rightPad, h0]
  apply String.ext
  simp [spaces]

theorem rightPad_of_pos (t : String) (width : Int) (h : ¬ width - (t.length : Int) ≤ 0) :
    rightPad t width = t ++ Repeat " " (width - (t.length : Int)) := by
  have h0 : max 0 (width - (t.length : Int)) = width - (t.length : Int) := by omega
  rw [rightPad, h0, Repeat_space]

theorem subLen_exact (l : Int) (n : Nat) (h : -(2 : Int) ^ 63 ≤ l - (n : Int)) :
    subLen l n = l - (n : Int) := by
  unfold subLen
  rw [if_neg (by omega)]

theorem subLen_wrapped (l : Int) (n : Nat) (h : l - (n : Int) < -(2 : Int) ^ 63) :
    subLen l n = l - (n : Int) + 2 ^ 64 := by
  unfold subLen
  rw [if_pos h]

/-- Where the subtraction does not wrap around, the cell has one of three
shapes: the padded text as it is, or painted with one of the two styles. -/
theorem addStyle_cases (P : Styles) (i l severity : Int)
    (hl : -(2 : Int) ^ 63 ≤ l - ((Itoa i).length : Int)) :
    addStyle P i l severity =
      if (Itoa i).length < l ∧ 0 < i ∧ severity = HighSeverity then
        P.HighSeverityStyle (rightPad (Itoa i) l)
      else if (Itoa i).length < l ∧ 0 < i ∧ severity = NormalSeverity then
        P.NormalSeverityStyle (rightPad (Itoa i) l)
      else rightPad (Itoa i) l := by
  unfold addStyle
  simp only [subLen_exact l _ hl]
  by_cases hn : l - ((Itoa i).length : Int) ≤ 0
  · have hl : ¬ ((Itoa i).length : Int) < l := by omega
    simp [hn, hl, rightPad_of_le _ _ hn]
  · have hl : ((Itoa i).length : Int) < l := by omega
    simp only [hn, hl, rightPad_of_pos _ _ hn, if_false, true_and]
    by_cases hi : 0 < i
    · by_cases hH : severity = HighSeverity
      · simp [hi, hH]
      · by_cases hN : severity = NormalSeverity
        · simp [hi, hN, HighSeverity, NormalSeverity]
        · simp [hi, hH, hN]
    · simp [hi]

/-- The loop over `pre ++ rest` runs the loop over `pre` and, if that came
through, goes on with `rest` from the map and broker state reached. -/
theorem collectTubes_append {σ : Type} (c : Conn σ) (pre rest : List String)
    (acc : StatsTable) (st : σ) :
    collectTubes c (pre ++ rest) acc st =
      match collectTubes c pre acc st with
      | (.ok m, st1) => collectTubes c rest m st1
      | (.err e, st1) => (.err e, st1)
      | (.panic e, st1) => (.panic e, st1) := by
  induction pre generalizing acc st with
  | nil => simp [collectTubes]
  | cons t pre ih =>
    simp only [List.cons_append, collectTubes]
    rcases h : GetStatsForTube c t st with ⟨o, st1⟩
    cases o with
    | ok v => simp [ih]
    | err e => simp
    | panic e => simp

theorem tableOfStats_rows (P : Styles) (order : StatsTable → List (String × TubeStats))
    (stats : StatsTable) :
    (tableOfStats P order stats).rows
      = (order stats).map fun ts => buildLineFromTubeStats P ts.1 ts.2 := by
  have h : ∀ (l : List (String × TubeStats)) (t : Table),
      (l.foldl (fun table ts => table.AddRow (buildLineFromTubeStats P ts.1 ts.2)) t).rows
        = t.rows ++ l.map fun ts => buildLineFromTubeStats P ts.1 ts.2 := by
    intro l
    induction l with
    | nil => simp
    | cons a l ih =>
      intro t
      rw [List.foldl_cons, ih]
      simp [Table.AddRow]
  rw [tableOfStats, h]
  simp [NewTable, Table.SetHeader]

theorem Atoi_inIntRange {s : String} {n : Int} (h : Atoi s = .ok n) : InIntRange n := by
  unfold Atoi at h
  cases hp : ParseInt s.data with
  | error k => simp [hp] at h
  | ok m =>
    simp only [hp, Except.ok.injEq] at h
    subst h
    unfold ParseInt at hp
    cases hd : s.data with
    | nil => simp [hd] at hp
    | cons c cs =>
      simp only [hd, intSize] at hp
      split at hp
      · cases hp
      · cases hp
      · rename_i un hu
        unfold InIntRange
        by_cases hneg : (c == '-') = true
        · by_cases hb : 9223372036854775808 < un
          · simp [hneg, hb] at hp
          · simp [hneg, hb] at hp
            norm_num
            omega
        · by_cases hb : 9223372036854775808 ≤ un
          · simp [hneg, hb] at hp
          · simp [hneg, hb] at hp
            norm_num
            omega

/-- A record that comes out of the conversion holds, in every field, what
`strconv.Atoi` read from the field's own key. -/
theorem statsOfSnapshot_ok {tube : String} {s : Snapshot} {v : TubeStats}
    (h : statsOfSnapshot tube s = .ok v) :
    s.lookup "name" = some tube ∧
      Atoi (s.index "current-jobs-buried") = .ok v.JobsBuried ∧
      Atoi (s.index "current-jobs-delayed") = .ok v.JobsDelayed ∧
      Atoi (s.index "current-jobs-ready") = .ok v.JobsReady ∧
      Atoi (s.index "current-jobs-reserved") = .ok v.JobsReserved ∧
      Atoi (s.index "current-jobs-urgent") = .ok v.JobsUrgent ∧
      Atoi (s.index "current-waiting") = .ok v.Waiting ∧
      Atoi (s.index "total-jobs") = .ok v.TotalJobs := by
  unfold statsOfSnapshot at h
  cases hn : s.lookup "name" with
  | none => simp [hn] at h
  | some name =>
    simp only [hn] at h
    by_cases hne : name = tube
    · subst hne
      simp only [ne_eq, not_true_eq_false, if_false, mustConvertToInt] at h
      cases h1 : Atoi (s.index "current-jobs-buried") <;>
      cases h2 : Atoi (s.index "current-jobs-ready") <;>
      cases h3 : Atoi (s.index "current-jobs-delayed") <;>
      cases h4 : Atoi (s.index "current-jobs-reserved") <;>
      cases h5 : Atoi (s.index "current-jobs-urgent") <;>
      cases h6 : Atoi (s.index "current-waiting") <;>
      cases h7 : Atoi (s.index "total-jobs") <;>
      simp [h1, h2, h3, h4, h5, h6, h7, Outcome.bind] at h
      subst h
      simp
    · simp [hne] at h

theorem set_keys (m : StatsTable) (a : String) (v : TubeStats) (k : String) :
    k ∈ (m.set a v).map Prod.fst ↔ k ∈ m.map Prod.fst ∨ k = a := by
  induction m with
  | nil => simp [StatsTable.set]
  | cons p m ih =>
    obtain ⟨k1, v1⟩ := p
    by_cases h : k1 = a
    · subst h
      simp only [StatsTable.set, if_true, List.map_cons, List.mem_cons]
      tauto
    · simp only [StatsTable.set, h, if_false, List.map_cons, List.mem_cons, ih]
      tauto

theorem set_nodup (m : StatsTable) (a : String) (v : TubeStats)
    (h : (m.map Prod.fst).Nodup) : ((m.set a v).map Prod.fst).Nodup := by
  induction m with
  | nil => simp [StatsTable.set]
  | cons p m ih =>
    obtain ⟨k1, v1⟩ := p
    simp only [List.map_cons, List.nodup_cons] at h
    by_cases hk : k1 = a
    · subst hk
      simpa [StatsTable.set] using h
    · simp only [StatsTable.set, hk, if_false, List.map_cons, List.nodup_cons]
      refine ⟨fun hmem => ?_, ih h.2⟩
      rcases (set_keys m a v k1).mp hmem with h1 | h1
      · exact h.1 h1
      · exact hk h1

theorem set_lookup (m : StatsTable) (a : String) (v : TubeStats) (k : String) :
    (m.set a v).lookup k = if k = a then some v else m.lookup k := by
  induction m with
  | nil =>
    by_cases h : k = a
    · simp [StatsTable.set, h]
    · simp [StatsTable.set, h, List.lookup_cons, beq_false_of_ne h]
  | cons p m ih =>
    obtain ⟨k1, v1⟩ := p
    by_cases hk : k1 = a
    · subst hk
      by_cases h : k = k1
      · simp [StatsTable.set, h]
      · simp [StatsTable.set, h, List.lookup_cons, beq_false_of_ne h]
    · by_cases h : k = k1
      · subst h
        simp [StatsTable.set, hk]
      · simp [StatsTable.set, hk, h, List.lookup_cons, ih, beq_false_of_ne h]

/-- When the tubes of the list are fetched and parsed successfully one after
the other, the loop of `GetStats` comes through; the keys of the map it returns
are the keys it started with and the tubes; a tube that is not listed keeps its
entry; and a listed tube is mapped to the record returned by the call made for
its last occurrence. -/
theorem collectTubes_ok {σ : Type} (c : Conn σ) (tubes : List String)
    (acc : StatsTable) (st st2 : σ) (hrun : FetchedAll c tubes st st2) :
    ∃ m, collectTubes c tubes acc st = (.ok m, st2) ∧
      (∀ k, k ∈ m.map Prod.fst ↔ k ∈ acc.map Prod.fst ∨ k ∈ tubes) ∧
      ((acc.map Prod.fst).Nodup → (m.map Prod.fst).Nodup) ∧
      (∀ k, k ∉ tubes → m.lookup k = acc.lookup k) ∧
      (∀ pre t post, tubes = pre ++ t :: post → t ∉ post →
        ∃ sp v sq, FetchedAll c pre st sp ∧
          GetStatsForTube c t sp = (.ok v, sq) ∧ m.lookup t = some v) := by
  induction tubes generalizing acc st with
  | nil =>
    have h : st2 = st := hrun
    subst h
    refine ⟨acc, rfl, by simp, id, fun _ _ => rfl, ?_⟩
    intro pre t post h
    simp at h
  | cons a tubes ih =>
    obtain ⟨v, s1, hg, hrest⟩ := hrun
    obtain ⟨m, hrun2, hkeys, hnodup, hkeep, hlast⟩ := ih (acc.set a v) s1 hrest
    refine ⟨m, by simp [collectTubes, hg, hrun2], ?_, ?_, ?_, ?_⟩
    · intro k
      rw [hkeys, set_keys, List.mem_cons]
      tauto
    · intro hacc
      exact hnodup (set_nodup acc a v hacc)
    · intro k hk
      rw [List.mem_cons, not_or] at hk
      rw [hkeep k hk.2, set_lookup, if_neg hk.1]
    · intro pre t post hsplit hnot
      cases pre with
      | nil =>
        simp only [List.nil_append, List.cons.injEq] at hsplit
        obtain ⟨rfl, rfl⟩ := hsplit
        refine ⟨st, v, s1, rfl, hg, ?_⟩
        rw [hkeep a hnot, set_lookup, if_pos rfl]
      | cons b pre =>
        simp only [List.cons_append, List.cons.injEq] at hsplit
        obtain ⟨rfl, rfl⟩ := hsplit
        obtain ⟨sp, w, sq, h1, h2, h3⟩ := hlast pre t post rfl hnot
        exact ⟨sp, w, sq, ⟨v, s1, hg, h1⟩, h2, h3⟩

theorem tableOfStats_header (P : Styles) (order : StatsTable → List (String × TubeStats))
    (stats : StatsTable) :
    (tableOfStats P order stats).header
      = ["Name", "Buried", "Delayed", "Ready", "Reserved", "Urgent", "Waiting", "Total"] := by
  have h : ∀ (l : List (String × TubeStats)) (t : Table),
      (l.foldl (fun table ts => table.AddRow (buildLineFromTubeStats P ts.1 ts.2)) t).header
        = t.header := by
    intro l
    induction l with
    | nil => simp
    | cons a l ih =>
      intro t
      rw [List.foldl_cons, ih]
      rfl
  rw [tableOfStats, h]
  rfl

theorem digit_toNat (d : Nat) (h : d < 10) : (Char.ofNat (48 + d)).toNat = 48 + d := by
  interval_cases d <;> rfl

theorem digit_not_sign (d : Nat) (h : d < 10) :
    (Char.ofNat (48 + d) == '+') = false ∧ (Char.ofNat (48 + d) == '-') = false := by
  interval_cases d <;> exact ⟨by decide, by decide⟩

/-- Reading the digits `formatBits` wrote gives the number back, and goes on
with what followed them. -/
theorem parseUintLoop_formatBits (fuel u : Nat) (acc : List Char) (hfuel : u < fuel)
    (hmax : u ≤ maxUint64) :
    parseUintLoop (formatBits fuel u acc) 0 = parseUintLoop acc u := by
  induction fuel generalizing u acc with
  | zero => omega
  | succ fuel ih =>
    have step : ∀ (d n : Nat), d < 10 → n * 10 + d ≤ maxUint64 →
        parseUintLoop (Char.ofNat (48 + d) :: acc) n = parseUintLoop acc (n * 10 + d) := by
      intro d n hd hn
      have h1 : ¬ n ≥ maxUint64 / 10 + 1 := by
        simp only [maxUint64] at hn ⊢
        omega
      have h2 : ¬ n * 10 + d > maxUint64 := by omega
      have h3 : 48 ≤ 48 + d ∧ 48 + d ≤ 57 := by omega
      simp only [parseUintLoop, digit_toNat d hd, h3, h1, if_true, if_false,
        Nat.add_sub_cancel_left, h2, and_self]
    unfold formatBits
    by_cases h10 : u < 10
    · simp only [h10, if_true]
      have := step u 0 h10 (by omega)
      simpa using this
    · simp only [h10, if_false]
      rw [ih (u / 10) _ (by omega) (by omega)]
      have hu : u / 10 * 10 + u % 10 = u := by omega
      have := step (u % 10) (u / 10) (by omega) (by omega)
      rw [hu] at this
      exact this

theorem formatBits_head (fuel u : Nat) (acc : List Char) :
    ∃ d cs, d < 10 ∧ formatBits (fuel + 1) u acc = Char.ofNat (48 + d) :: cs := by
  induction fuel generalizing u acc with
  | zero =>
    unfold formatBits
    by_cases h10 : u < 10
    · exact ⟨u, acc, h10, by simp [h10]⟩
    · exact ⟨u % 10, acc, by omega, by simp [h10, formatBits]⟩
  | succ fuel ih =>
    unfold formatBits
    by_cases h10 : u < 10
    · exact ⟨u, acc, h10, by simp [h10]⟩
    · simp only [h10, if_false]
      exact ih _ _

theorem ParseUint_formatBits (u : Nat) (hmax : u ≤ maxUint64) :
    ParseUint (formatBits (u + 1) u []) = .ok u := by
  obtain ⟨d, cs, -, hcs⟩ := formatBits_head u u []
  have h := parseUintLoop_formatBits (u + 1) u [] (by omega) hmax
  rw [hcs] at h
  rw [hcs]
  show parseUintLoop (Char.ofNat (48 + d) :: cs) 0 = .ok u
  rw [h]
  rfl

/-- Printing an `int` with `strconv.Itoa` and reading the result with
`strconv.Atoi` gives the `int` back. -/
theorem Atoi_Itoa (n : Int) (h : InIntRange n) : Atoi (Itoa n) = .ok n := by
  obtain ⟨hlo, hhi⟩ := h
  have hmax : n.natAbs ≤ maxUint64 := by
    simp only [maxUint64]
    omega
  have hP := ParseUint_formatBits n.natAbs hmax
  obtain ⟨d, cs, hd, hcs⟩ := formatBits_head n.natAbs n.natAbs []
  obtain ⟨hplus, hminus⟩ := digit_not_sign d hd
  unfold Atoi Itoa
  by_cases hneg : n < 0
  · have hb : ¬ 9223372036854775808 < n.natAbs := by omega
    simp [hneg, ParseInt, hP, intSize, hb, abs_of_neg hneg]
  · have hb : ¬ 9223372036854775808 ≤ n.natAbs := by omega
    have hnn : 0 ≤ n := by omega
    rw [hcs] at hP
    simp [hneg, hcs, ParseInt, hplus, hminus, hP, intSize, hb, abs_of_nonneg hnn]

theorem rightPad_length (t : String) (width : Int) :
    ((rightPad t width).length : Int) = max width (t.length : Int) := by
  have hs : ∀ n : Nat, (spaces n).length = n := fun n => List.length_replicate n ' '
  have h : (rightPad t width).length = t.length + (max 0 (width - (t.length : Int))).toNat := by
    rw [rightPad, String.length_append, hs]
  rw [h]
  omega

theorem rightPad_contains (t : String) (width : Int) : Contains (rightPad t width) t := by
  unfold Contains rightPad
  rw [String.data_append]
  exact (List.prefix_append _ _).isInfix

theorem Itoa_neg (i : Int) (h : i < 0) : Itoa i = "-" ++ Itoa (-i) := by
  have h1 : ¬ -i < 0 := by omega
  unfold Itoa
  simp only [h, h1, if_true, if_false, Int.natAbs_neg]
  rfl

theorem spaces_length (n : Nat) : (spaces n).length = n :=
  List.length_replicate n ' '

/-- Where the subtraction wraps around, the guard `needs <= 0` does not fire: a
cell that is not painted is the decimal representation followed by the
`l - len + 2 ^ 64` spaces `strings.Repeat` is asked for. -/
theorem addStyle_underflow (P : Styles) (i l severity : Int)
    (h1 : l - ((Itoa i).length : Int) < -(2 : Int) ^ 63)
    (h2 : -(2 : Int) ^ 64 < l - ((Itoa i).length : Int))
    (hplain : ¬ 0 < i ∨ (severity ≠ HighSeverity ∧ severity ≠ NormalSeverity)) :
    addStyle P i l severity
      = Itoa i ++ spaces (l - ((Itoa i).length : Int) + 2 ^ 64).toNat := by
  unfold addStyle
  have hn : ¬ l - ((Itoa i).length : Int) + 2 ^ 64 ≤ 0 := by omega
  simp only [subLen_wrapped l _ h1, hn, if_false, Repeat_space]
  rcases hplain with hi | ⟨hH, hN⟩
  · simp [hi]
  · simp [hH, hN]

theorem addStyle_underflow_length (P : Styles) (i l severity : Int)
    (h1 : l - ((Itoa i).length : Int) < -(2 : Int) ^ 63)
    (h2 : -(2 : Int) ^ 64 < l - ((Itoa i).length : Int))
    (hplain : ¬ 0 < i ∨ (severity ≠ HighSeverity ∧ severity ≠ NormalSeverity)) :
    ((addStyle P i l severity).length : Int) = l + 2 ^ 64 := by
  rw [addStyle_underflow P i l severity h1 h2 hplain, String.length_append, spaces_length]
  omega

/-- The broker `flakyConn` does fail a statistics request made before any
other request, although a run of `GetStats` never makes one. -/
theorem flakyConn_refuses_first :
    (GetStatsForTube flakyConn "default" []).1 = .err (.broker "OUT_OF_ORDER") := by
  decide

/-! ## Parsing one snapshot -/

/-- C1. When the fetched snapshot names the requested tube and holds all seven
counters as numerals, `GetStatsForTube` succeeds and every field of the record
is the integer read from its own key. -/
theorem GetStatsForTube_fields {σ : Type} (c : Conn σ) (tube : String) (st st1 : σ)
    (s : Snapshot) (b d r rs u w t : Int)
    (hfetch : c.Stats tube st = (.ok s, st1))
    (hname : s.lookup "name" = some tube)
    (hb : HasCounter s "current-jobs-buried" b)
    (hd : HasCounter s "current-jobs-delayed" d)
    (hr : HasCounter s "current-jobs-ready" r)
    (hrs : HasCounter s "current-jobs-reserved" rs)
    (hu : HasCounter s "current-jobs-urgent" u)
    (hw : HasCounter s "current-waiting" w)
    (ht : HasCounter s "total-jobs" t) :
    GetStatsForTube c tube st =
      (.ok { JobsBuried := b, JobsDelayed := d, JobsReady := r, JobsReserved := rs,
             JobsUrgent := u, Waiting := w, TotalJobs := t }, st1) := by
  simp [GetStatsForTube, hfetch, statsOfSnapshot, hname, Outcome.bind,
    mustConvertToInt_of_hasCounter hb, mustConvertToInt_of_hasCounter hd,
    mustConvertToInt_of_hasCounter hr, mustConvertToInt_of_hasCounter hrs,
    mustConvertToInt_of_hasCounter hu, mustConvertToInt_of_hasCounter hw,
    mustConvertToInt_of_hasCounter ht]

theorem GetStatsForTube_fields_witness :
    GetStatsForTube demoConn "default" [] =
      (.ok { JobsBuried := 0, JobsDelayed := 2, JobsReady := 5, JobsReserved := 0,
             JobsUrgent := 1, Waiting := 3, TotalJobs := 8 }, ["stats-tube default"]) :=
  GetStatsForTube_fields demoConn "default" [] ["stats-tube default"] defaultSnapshot
    0 2 5 0 1 3 8 (by decide) (by decide)
    ⟨"0", by decide, by decide⟩ ⟨"2", by decide, by decide⟩ ⟨"5", by decide, by decide⟩
    ⟨"0", by decide, by decide⟩ ⟨"1", by decide, by decide⟩ ⟨"3", by decide, by decide⟩
    ⟨"8", by decide, by decide⟩

/-- C2. When the fetched snapshot has no `name` entry, or one that differs from
the requested tube, `GetStatsForTube` returns `TubeStatsRetrievalError` and no
record, whatever else the snapshot holds. -/
theorem GetStatsForTube_name_mismatch {σ : Type} (c : Conn σ) (tube : String) (st st1 : σ)
    (s : Snapshot)
    (hfetch : c.Stats tube st = (.ok s, st1))
    (hname : s.lookup "name" = none ∨ ∃ name, s.lookup "name" = some name ∧ name ≠ tube) :
    GetStatsForTube c tube st = (.err .TubeStatsRetrievalError, st1) := by
  rcases hname with h | ⟨name, h, hne⟩
  · simp [GetStatsForTube, hfetch, statsOfSnapshot, h]
  · simp [GetStatsForTube, hfetch, statsOfSnapshot, h, hne]

theorem GetStatsForTube_name_mismatch_witness :
    GetStatsForTube brokenConn "jobs" [] =
      (.err .TubeStatsRetrievalError, ["stats-tube jobs"]) :=
  GetStatsForTube_name_mismatch brokenConn "jobs" [] ["stats-tube jobs"]
    (snapshotOf "other" "x" "" "-" "1e3" "0x10" "1_000" " 7") (by decide)
    (Or.inr ⟨"other", by decide, by decide⟩)

/-- C3, as stated, fails: for a snapshot that names the requested tube and has
no counters, `GetStatsForTube` panics with the `strconv` error of the first
conversion; it returns no error value at all. -/
theorem GetStatsForTube_missing_counter_panics :
    (GetStatsForTube brokenConn "default" []).1 =
        .panic { Func := "Atoi", Num := "", Err := .ErrSyntax } ∧
      ¬ ∃ e : Error, (GetStatsForTube brokenConn "default" []).1 = .err e := by
  have h : (GetStatsForTube brokenConn "default" []).1 =
      .panic { Func := "Atoi", Num := "", Err := .ErrSyntax } := by decide
  refine ⟨h, ?_⟩
  rintro ⟨e, he⟩
  rw [h] at he
  cases he

/-- C3, amended. When the fetched snapshot names the requested tube and one of
the seven counter keys is absent or holds a value `strconv.Atoi` rejects,
`GetStatsForTube` does not return: it panics, and the panic value is the
`strconv` error of the first such counter in conversion order. -/
theorem GetStatsForTube_bad_counter {σ : Type} (c : Conn σ) (tube : String) (st st1 : σ)
    (s : Snapshot) (k : String)
    (hfetch : c.Stats tube st = (.ok s, st1))
    (hname : s.lookup "name" = some tube)
    (hk : k ∈ counterKeys)
    (hbad : BadCounter s k) :
    ∃ e, firstBadCounter s = some e ∧ GetStatsForTube c tube st = (.panic e, st1) := by
  obtain ⟨e, he⟩ := firstBadCounter_isSome_of_bad s k hk hbad
  have h := statsOfSnapshot_firstBad tube s hname
  rw [he] at h
  exact ⟨e, he, by simp [GetStatsForTube, hfetch, h]⟩

theorem GetStatsForTube_bad_counter_witness :
    ∃ e, firstBadCounter [("name", "default")] = some e ∧
      GetStatsForTube brokenConn "default" [] = (.panic e, ["stats-tube default"]) :=
  GetStatsForTube_bad_counter brokenConn "default" [] ["stats-tube default"]
    [("name", "default")] "current-waiting" (by decide) (by decide) (by decide)
    (Or.inl (by decide))

/-! ## Cells -/

/-- C4, as stated, fails at the smallest width: for `addStyle(5, -2^63, Low)`
the subtraction `l - len(value)` wraps around to `2^63 - 1`, the guard
`needs <= 0` does not fire and `strings.Repeat` is asked for `2^63 - 1` spaces
(more than a machine can allocate: the Go call panics); the cell is not the
bare `5` that `max(0, width - len)` spaces would give. -/
theorem addStyle_text_underflow :
    subLen (-(2 : Int) ^ 63) (Itoa 5).length = 2 ^ 63 - 1 ∧
      addStyle plainStyles 5 (-(2 : Int) ^ 63) LowSeverity
        ≠ Itoa 5 ++ spaces (max 0 (-(2 : Int) ^ 63 - ((Itoa 5).length : Int))).toNat := by
  have h5 : (Itoa 5).length = 1 := by decide
  have h1 : -(2 : Int) ^ 63 - ((Itoa 5).length : Int) < -(2 : Int) ^ 63 := by
    rw [h5]
    norm_num
  have h2 : -(2 : Int) ^ 64 < -(2 : Int) ^ 63 - ((Itoa 5).length : Int) := by
    rw [h5]
    norm_num
  have hlen := addStyle_underflow_length plainStyles 5 (-(2 : Int) ^ 63) LowSeverity h1 h2
    (Or.inr ⟨by decide, by decide⟩)
  refine ⟨?_, ?_⟩
  · rw [subLen_wrapped _ _ h1, h5]
    norm_num
  · intro heq
    have hr : ((Itoa 5 ++ spaces
        (max 0 (-(2 : Int) ^ 63 - ((Itoa 5).length : Int))).toNat).length : Int) = 1 := by
      rw [String.length_append, spaces_length, h5]
      norm_num
    rw [heq, hr] at hlen
    norm_num at hlen

/-- C4, amended. For every value and severity and every width for which
`width - len` does not fall below `-2^63`, the text of the cell, before any
style is applied, is the decimal representation followed by exactly
`max 0 (width - len)` spaces: with colours off `addStyle` returns that text, and
with any styles it returns that text, plain or painted by one of the two styles.
A value at least `width` long comes back whole, as `12345678901` at width 10. -/
theorem addStyle_text (P : Styles) (i l severity : Int)
    (hl : -(2 : Int) ^ 63 ≤ l - ((Itoa i).length : Int)) :
    addStyle plainStyles i l severity
        = Itoa i ++ spaces (max 0 (l - ((Itoa i).length : Int))).toNat ∧
      (addStyle P i l severity = rightPad (Itoa i) l ∨
        addStyle P i l severity = P.HighSeverityStyle (rightPad (Itoa i) l) ∨
        addStyle P i l severity = P.NormalSeverityStyle (rightPad (Itoa i) l)) ∧
      ((l : Int) ≤ (Itoa i).length → addStyle P i l severity = Itoa i) ∧
      addStyle P 12345678901 10 severity = "12345678901" := by
  refine ⟨?_, ?_, ?_, ?_⟩
  · rw [addStyle_cases _ _ _ _ hl]
    simp only [plainStyles, id, ite_self]
    rfl
  · rw [addStyle_cases _ _ _ _ hl]
    split
    · exact Or.inr (Or.inl rfl)
    · split
      · exact Or.inr (Or.inr rfl)
      · exact Or.inl rfl
  · intro h
    have hlt : ¬ ((Itoa i).length : Int) < l := by omega
    rw [addStyle_cases _ _ _ _ hl]
    simp only [hlt, false_and, if_false]
    exact rightPad_of_le _ _ (by omega)
  · have hI : Itoa 12345678901 = "12345678901" := by decide
    have hw : -(2 : Int) ^ 63 ≤ 10 - ((Itoa 12345678901).length : Int) := by
      rw [hI]
      decide
    rw [addStyle_cases _ _ _ _ hw, hI]
    have hlen : ¬ (("12345678901" : String).length : Int) < 10 := by decide
    simp only [hlen, false_and, if_false]
    exact rightPad_of_le _ _ (by decide)

theorem addStyle_text_witness :
    addStyle plainStyles 5 10 HighSeverity
        = Itoa 5 ++ spaces (max 0 (10 - ((Itoa 5).length : Int))).toNat ∧
      (addStyle markStyles 5 10 HighSeverity = rightPad (Itoa 5) 10 ∨
        addStyle markStyles 5 10 HighSeverity
          = markStyles.HighSeverityStyle (rightPad (Itoa 5) 10) ∨
        addStyle markStyles 5 10 HighSeverity
          = markStyles.NormalSeverityStyle (rightPad (Itoa 5) 10)) ∧
      ((10 : Int) ≤ (Itoa 5).length → addStyle markStyles 5 10 HighSeverity = Itoa 5) ∧
      addStyle markStyles 12345678901 10 HighSeverity = "12345678901" :=
  addStyle_text markStyles 5 10 HighSeverity (by decide)

/-- C5, as stated, fails at the smallest width: for `addStyle(0, -2^63, High)`
the subtraction wraps around to `2^63 - 1` and `strings.Repeat` is asked for
that many spaces (more than a machine can allocate: the Go call panics); the
cell is not `0` right-padded to the width, which is the bare `0`. -/
theorem addStyle_zero_underflow :
    subLen (-(2 : Int) ^ 63) (Itoa 0).length = 2 ^ 63 - 1 ∧
      addStyle markStyles 0 (-(2 : Int) ^ 63) HighSeverity ≠ rightPad "0" (-(2 : Int) ^ 63) := by
  have h0 : (Itoa 0).length = 1 := by decide
  have h1 : -(2 : Int) ^ 63 - ((Itoa 0).length : Int) < -(2 : Int) ^ 63 := by
    rw [h0]
    norm_num
  have h2 : -(2 : Int) ^ 64 < -(2 : Int) ^ 63 - ((Itoa 0).length : Int) := by
    rw [h0]
    norm_num
  have hlen := addStyle_underflow_length markStyles 0 (-(2 : Int) ^ 63) HighSeverity h1 h2
    (Or.inl (by decide))
  refine ⟨?_, ?_⟩
  · rw [subLen_wrapped _ _ h1, h0]
    norm_num
  · intro heq
    have hr : rightPad "0" (-(2 : Int) ^ 63) = "0" := rightPad_of_le _ _ (by decide)
    have hone : (("0" : String).length : Int) = 1 := by decide
    rw [heq, hr, hone] at hlen
    norm_num at hlen

/-- C5, amended. For every width above `-2^63` and every severity, a zero cell is
not painted; for every value and every width for which `width - len` does not
fall below `-2^63`, a `LowSeverity` cell is not painted. In both cases the
result is the decimal representation right-padded to the width. So
`addStyle(0, 10, High)` and `addStyle(0, 10, Normal)` are `0` and nine spaces,
and `addStyle(5, 10, Low)` is `5` and nine spaces. -/
theorem addStyle_unstyled (P : Styles) (i l severity : Int)
    (hzero : -(2 : Int) ^ 63 < l)
    (hl : -(2 : Int) ^ 63 ≤ l - ((Itoa i).length : Int)) :
    addStyle P 0 l severity = rightPad "0" l ∧
      addStyle P i l LowSeverity = rightPad (Itoa i) l ∧
      addStyle P 0 10 HighSeverity = "0         " ∧
      addStyle P 0 10 NormalSeverity = "0         " ∧
      addStyle P 5 10 LowSeverity = "5         " := by
  have h0 : Itoa 0 = "0" := by decide
  have h5 : Itoa 5 = "5" := by decide
  have hlen0 : ((Itoa 0).length : Int) = 1 := by decide
  have hz : ∀ (w sev : Int), -(2 : Int) ^ 63 < w → addStyle P 0 w sev = rightPad "0" w := by
    intro w sev hw
    rw [addStyle_cases _ _ _ _ (by rw [hlen0]; omega), h0]
    simp
  have hlow : ∀ j w : Int, -(2 : Int) ^ 63 ≤ w - ((Itoa j).length : Int) →
      addStyle P j w LowSeverity = rightPad (Itoa j) w := by
    intro j w hw
    rw [addStyle_cases _ _ _ _ hw]
    simp [LowSeverity, HighSeverity, NormalSeverity]
  have hpad0 : rightPad "0" 10 = "0         " := by decide
  have hpad5 : rightPad "5" 10 = "5         " := by decide
  refine ⟨hz l severity hzero, hlow i l hl, ?_, ?_, ?_⟩
  · rw [hz 10 HighSeverity (by norm_num), hpad0]
  · rw [hz 10 NormalSeverity (by norm_num), hpad0]
  · rw [hlow 5 10 (by rw [h5]; decide), h5, hpad5]

theorem addStyle_unstyled_witness :
    addStyle markStyles 0 3 HighSeverity = rightPad "0" 3 ∧
      addStyle markStyles 1234 3 LowSeverity = rightPad (Itoa 1234) 3 ∧
      addStyle markStyles 0 10 HighSeverity = "0         " ∧
      addStyle markStyles 0 10 NormalSeverity = "0         " ∧
      addStyle markStyles 5 10 LowSeverity = "5         " :=
  addStyle_unstyled markStyles 1234 3 HighSeverity (by decide) (by decide)

/-- C6. A positive value whose decimal representation is shorter than the
width is painted after padding: with `HighSeverity` the result is the High
style applied to the padded text, with `NormalSeverity` the Normal style
applied to the padded text. -/
theorem addStyle_styled (P : Styles) (i l : Int) (hpos : 0 < i)
    (hshort : ((Itoa i).length : Int) < l) :
    addStyle P i l HighSeverity
        = P.HighSeverityStyle (Itoa i ++ spaces (l - ((Itoa i).length : Int)).toNat) ∧
      addStyle P i l NormalSeverity
        = P.NormalSeverityStyle (Itoa i ++ spaces (l - ((Itoa i).length : Int)).toNat) := by
  have hmax : max 0 (l - ((Itoa i).length : Int)) = l - ((Itoa i).length : Int) := by omega
  have hl : -(2 : Int) ^ 63 ≤ l - ((Itoa i).length : Int) := by omega
  constructor
  · rw [addStyle_cases _ _ _ _ hl]
    simp [hpos, hshort, rightPad, hmax]
  · rw [addStyle_cases _ _ _ _ hl]
    simp [hpos, hshort, rightPad, hmax, HighSeverity, NormalSeverity]

theorem addStyle_styled_witness :
    addStyle markStyles 5 10 HighSeverity = "<H>5         </>" ∧
      addStyle markStyles 5 10 NormalSeverity = "<N>5         </>" :=
  addStyle_styled markStyles 5 10 (by decide) (by decide)

/-- C7 at the input that breaks it: `addStyle(12345678901, 10, NormalSeverity)`
and `addStyle(12345678901, 10, HighSeverity)` return the bare digits, painted
by neither style, while the same value at width 12 is painted. -/
theorem addStyle_wide_value_unpainted (P : Styles) :
    addStyle P 12345678901 10 NormalSeverity = "12345678901" ∧
      addStyle P 12345678901 10 HighSeverity = "12345678901" ∧
      addStyle P 12345678901 12 NormalSeverity = P.NormalSeverityStyle "12345678901 " ∧
      addStyle markStyles 12345678901 10 NormalSeverity
        ≠ markStyles.NormalSeverityStyle "12345678901" := by
  have hI : Itoa 12345678901 = "12345678901" := by decide
  have hlen : ¬ (("12345678901" : String).length : Int) < 10 := by decide
  have h10 : -(2 : Int) ^ 63 ≤ 10 - ((Itoa 12345678901).length : Int) := by
    rw [hI]
    decide
  have h12 : -(2 : Int) ^ 63 ≤ 12 - ((Itoa 12345678901).length : Int) := by
    rw [hI]
    decide
  have hw : ∀ sev : Int, addStyle P 12345678901 10 sev = "12345678901" := by
    intro sev
    rw [addStyle_cases _ _ _ _ h10, hI]
    simp only [hlen, false_and, if_false]
    exact rightPad_of_le _ _ (by decide)
  refine ⟨hw _, hw _, ?_, by decide⟩
  rw [addStyle_cases _ _ _ _ h12, hI]
  have hlen12 : (("12345678901" : String).length : Int) < 12 := by decide
  have hpad : rightPad "12345678901" 12 = "12345678901 " := by decide
  simp [hlen12, hpad, HighSeverity, NormalSeverity]

/-! ## Rows -/

/-- C8. A row has exactly eight cells in header order: the tube name as it is,
then `addStyle` at width 10 of the buried count with `HighSeverity`, of the
delayed, ready, reserved and urgent counts with `NormalSeverity`, and of the
waiting and total counts with `LowSeverity`. -/
theorem buildLineFromTubeStats_cells (P : Styles) (name : String) (s : TubeStats) :
    buildLineFromTubeStats P name s =
        [name,
         addStyle P s.JobsBuried 10 HighSeverity,
         addStyle P s.JobsDelayed 10 NormalSeverity,
         addStyle P s.JobsReady 10 NormalSeverity,
         addStyle P s.JobsReserved 10 NormalSeverity,
         addStyle P s.JobsUrgent 10 NormalSeverity,
         addStyle P s.Waiting 10 LowSeverity,
         addStyle P s.TotalJobs 10 LowSeverity] ∧
      (buildLineFromTubeStats P name s).length = 8 := by
  exact ⟨rfl, rfl⟩

/-! ## Collecting -/

/-- C9, as stated, fails: the second tube of `oddConn`, `jobs`, names itself but
has an empty ready count; its snapshot cannot be parsed, and `GetStats` returns
no error: it panics with the `strconv` error of that counter. -/
theorem GetStats_bad_counter_panics :
    GetStats oddConn [] =
        (.panic { Func := "Atoi", Num := "", Err := .ErrSyntax },
          ["list-tubes", "stats-tube default", "stats-tube jobs"]) ∧
      ¬ ∃ e : Error, (GetStats oddConn []).1 = .err e := by
  have h : GetStats oddConn [] =
      (.panic { Func := "Atoi", Num := "", Err := .ErrSyntax },
        ["list-tubes", "stats-tube default", "stats-tube jobs"]) := by decide
  refine ⟨h, ?_⟩
  rintro ⟨e, he⟩
  rw [h] at he
  cases he

/-- C9, amended. When listing succeeds and every tube before `t` in the list is
fetched and parsed, the first failure decides the result and the broker is
left in the state right after the request for `t`, so no later tube is
fetched and no table is returned: if the broker fails the request for `t`,
`GetStats` returns the broker's error; if the snapshot of `t` lacks `name` or
names another tube, `GetStats` returns `TubeStatsRetrievalError`; if the
snapshot names `t` but a counter is absent or unreadable, `GetStats` returns
nothing and panics with the `strconv` error of the first such counter. -/
theorem GetStats_first_failure {σ : Type} (c : Conn σ) (st st1 st2 st3 : σ)
    (pre post : List String) (t : String)
    (hlist : c.ListTubes st = (.ok (pre ++ t :: post), st1))
    (hpre : FetchedAll c pre st1 st2) :
    (∀ e, c.Stats t st2 = (.error e, st3) → GetStats c st = (.err e, st3)) ∧
      (∀ s, c.Stats t st2 = (.ok s, st3) →
        (s.lookup "name" = none ∨ ∃ name, s.lookup "name" = some name ∧ name ≠ t) →
        GetStats c st = (.err .TubeStatsRetrievalError, st3)) ∧
      (∀ s k, c.Stats t st2 = (.ok s, st3) → s.lookup "name" = some t →
        k ∈ counterKeys → BadCounter s k →
        ∃ e, firstBadCounter s = some e ∧ GetStats c st = (.panic e, st3)) := by
  obtain ⟨m, hm, -⟩ := collectTubes_ok c pre [] st1 st2 hpre
  have herr : ∀ e, GetStatsForTube c t st2 = (.err e, st3) →
      GetStats c st = (.err e, st3) := by
    intro e ho
    simp [GetStats, hlist, collectTubes_append, hm, collectTubes, ho]
  have hpanic : ∀ e, GetStatsForTube c t st2 = (.panic e, st3) →
      GetStats c st = (.panic e, st3) := by
    intro e ho
    simp [GetStats, hlist, collectTubes_append, hm, collectTubes, ho]
  refine ⟨?_, ?_, ?_⟩
  · intro e he
    exact herr e (by simp [GetStatsForTube, he])
  · intro s hs hname
    refine herr _ ?_
    rcases hname with h | ⟨name, h, hne⟩
    · simp [GetStatsForTube, hs, statsOfSnapshot, h]
    · simp [GetStatsForTube, hs, statsOfSnapshot, h, hne]
  · intro s k hs hname hk hbad
    obtain ⟨e, he⟩ := firstBadCounter_isSome_of_bad s k hk hbad
    have h := statsOfSnapshot_firstBad t s hname
    rw [he] at h
    exact ⟨e, he, hpanic e (by simp [GetStatsForTube, hs, h])⟩

theorem GetStats_first_failure_witness :
    GetStats ghostConn [] =
        (.err (.broker "NOT_FOUND"),
          ["list-tubes", "stats-tube default", "stats-tube ghost"]) ∧
      GetStats namelessConn [] =
        (.err .TubeStatsRetrievalError,
          ["list-tubes", "stats-tube default", "stats-tube urgent-jobs"]) ∧
      ∃ e, firstBadCounter (snapshotOf "jobs" "0" "0" "" "0" "0" "0" "0") = some e ∧
        GetStats oddConn [] =
          (.panic e, ["list-tubes", "stats-tube default", "stats-tube jobs"]) :=
  ⟨(GetStats_first_failure ghostConn [] ["list-tubes"] ["list-tubes", "stats-tube default"]
      ["list-tubes", "stats-tube default", "stats-tube ghost"] ["default"] ["jobs"] "ghost"
      (by decide) ⟨defaultStats, ["list-tubes", "stats-tube default"], by decide, rfl⟩).1
      (.broker "NOT_FOUND") (by decide),
   (GetStats_first_failure namelessConn [] ["list-tubes"]
      ["list-tubes", "stats-tube default"]
      ["list-tubes", "stats-tube default", "stats-tube urgent-jobs"] ["default"] ["jobs"]
      "urgent-jobs" (by decide)
      ⟨defaultStats, ["list-tubes", "stats-tube default"], by decide, rfl⟩).2.1
      namelessSnapshot (by decide) (Or.inl (by decide)),
   (GetStats_first_failure oddConn [] ["list-tubes"] ["list-tubes", "stats-tube default"]
      ["list-tubes", "stats-tube default", "stats-tube jobs"] ["default"] [] "jobs"
      (by decide) ⟨oddStats, ["list-tubes", "stats-tube default"], by decide, rfl⟩).2.2
      (snapshotOf "jobs" "0" "0" "" "0" "0" "0" "0")
      "current-jobs-ready" (by decide) (by decide) (by decide)
      (Or.inr ⟨"", _, by decide, Atoi_empty⟩)⟩

/-! ## Row order -/

/-- C10, as stated, fails: visiting a map in the reverse of the order it was
filled is one of the orders `range` may take, and for the table of the tubes
`default` and `urgent-jobs` it hands the row of `urgent-jobs` to the table
before the row of `default`, which is not ascending. -/
theorem tableOfStats_rows_not_ascending :
    IsRangeOrder List.reverse ∧
      (GetStats demoConn []).1 = .ok demoTable ∧
      rowNames (tableOfStats markStyles List.reverse demoTable) = ["urgent-jobs", "default"] ∧
      ¬ Ascending (rowNames (tableOfStats markStyles List.reverse demoTable)) := by
  refine ⟨fun m => List.reverse_perm m, by decide, by decide, by decide⟩

/-- C10, amended. Whatever order the `range` statement visits the map in, the
rows are handed to the table in that order, one row per entry, each built by
`buildLineFromTubeStats`; the sequence of row names is a rearrangement of the
tube names of the table. -/
theorem tableOfStats_rows_perm (P : Styles) (order : StatsTable → List (String × TubeStats))
    (stats : StatsTable) (horder : IsRangeOrder order) :
    (tableOfStats P order stats).rows
        = (order stats).map (fun ts => buildLineFromTubeStats P ts.1 ts.2) ∧
      (rowNames (tableOfStats P order stats)).Perm (stats.map Prod.fst) := by
  refine ⟨tableOfStats_rows P order stats, ?_⟩
  have hn : rowNames (tableOfStats P order stats) = (order stats).map Prod.fst := by
    simp [rowNames, tableOfStats_rows, buildLineFromTubeStats]
  rw [hn]
  exact (horder stats).map Prod.fst

theorem tableOfStats_rows_perm_witness :
    (tableOfStats markStyles List.reverse demoTable).rows
        = (List.reverse demoTable).map
            (fun ts => buildLineFromTubeStats markStyles ts.1 ts.2) ∧
      (rowNames (tableOfStats markStyles List.reverse demoTable)).Perm
        (demoTable.map Prod.fst) :=
  tableOfStats_rows_perm markStyles List.reverse demoTable (fun m => List.reverse_perm m)

/-! ## Sign and absence of counters -/

/-- C11, as stated, fails: for the tube `default` of `oddConn`, whose buried
count is the string `-3`, `GetStatsForTube` succeeds and the field
`JobsBuried` of the record is `-3`. -/
theorem GetStatsForTube_negative_counter :
    GetStatsForTube oddConn "default" [] =
        (.ok { JobsBuried := -3, JobsDelayed := 2, JobsReady := 5, JobsReserved := 0,
               JobsUrgent := 1, Waiting := 3, TotalJobs := 8 }, ["stats-tube default"]) ∧
      ¬ ∀ v st1, GetStatsForTube oddConn "default" [] = (.ok v, st1) → 0 ≤ v.JobsBuried := by
  have h : GetStatsForTube oddConn "default" [] =
      (.ok { JobsBuried := -3, JobsDelayed := 2, JobsReady := 5, JobsReserved := 0,
             JobsUrgent := 1, Waiting := 3, TotalJobs := 8 }, ["stats-tube default"]) := by
    decide
  refine ⟨h, fun hall => ?_⟩
  have h0 := hall _ _ h
  exact absurd h0 (by decide)

/-- C11, amended. Every record `GetStatsForTube` returns holds in each of its
seven fields the signed integer `strconv.Atoi` reads from the field's own
counter, which lies in the range of a 64-bit `int`; nothing restricts it to be
non-negative. -/
theorem GetStatsForTube_fields_signed {σ : Type} (c : Conn σ) (tube : String) (st st1 : σ)
    (v : TubeStats) (h : GetStatsForTube c tube st = (.ok v, st1)) :
    ∃ s, c.Stats tube st = (.ok s, st1) ∧
      (Atoi (s.index "current-jobs-buried") = .ok v.JobsBuried ∧ InIntRange v.JobsBuried) ∧
      (Atoi (s.index "current-jobs-delayed") = .ok v.JobsDelayed ∧ InIntRange v.JobsDelayed) ∧
      (Atoi (s.index "current-jobs-ready") = .ok v.JobsReady ∧ InIntRange v.JobsReady) ∧
      (Atoi (s.index "current-jobs-reserved") = .ok v.JobsReserved ∧
        InIntRange v.JobsReserved) ∧
      (Atoi (s.index "current-jobs-urgent") = .ok v.JobsUrgent ∧ InIntRange v.JobsUrgent) ∧
      (Atoi (s.index "current-waiting") = .ok v.Waiting ∧ InIntRange v.Waiting) ∧
      (Atoi (s.index "total-jobs") = .ok v.TotalJobs ∧ InIntRange v.TotalJobs) := by
  unfold GetStatsForTube at h
  rcases hs : c.Stats tube st with ⟨r, st2⟩
  cases r with
  | error e => simp [hs] at h
  | ok s =>
    simp only [hs, Prod.mk.injEq] at h
    obtain ⟨hv, hst⟩ := h
    subst hst
    obtain ⟨_, h1, h2, h3, h4, h5, h6, h7⟩ := statsOfSnapshot_ok hv
    exact ⟨s, rfl, ⟨h1, Atoi_inIntRange h1⟩, ⟨h2, Atoi_inIntRange h2⟩,
      ⟨h3, Atoi_inIntRange h3⟩, ⟨h4, Atoi_inIntRange h4⟩, ⟨h5, Atoi_inIntRange h5⟩,
      ⟨h6, Atoi_inIntRange h6⟩, ⟨h7, Atoi_inIntRange h7⟩⟩

theorem GetStatsForTube_fields_signed_witness :
    ∃ s, oddConn.Stats "default" [] = (.ok s, ["stats-tube default"]) ∧
      (Atoi (s.index "current-jobs-buried") = .ok (-3) ∧ InIntRange (-3)) ∧
      (Atoi (s.index "current-jobs-delayed") = .ok 2 ∧ InIntRange 2) ∧
      (Atoi (s.index "current-jobs-ready") = .ok 5 ∧ InIntRange 5) ∧
      (Atoi (s.index "current-jobs-reserved") = .ok 0 ∧ InIntRange 0) ∧
      (Atoi (s.index "current-jobs-urgent") = .ok 1 ∧ InIntRange 1) ∧
      (Atoi (s.index "current-waiting") = .ok 3 ∧ InIntRange 3) ∧
      (Atoi (s.index "total-jobs") = .ok 8 ∧ InIntRange 8) :=
  GetStatsForTube_fields_signed oddConn "default" [] ["stats-tube default"]
    { JobsBuried := -3, JobsDelayed := 2, JobsReady := 5, JobsReserved := 0,
      JobsUrgent := 1, Waiting := 3, TotalJobs := 8 } (by decide)

/-- C12. When the fetched snapshot lacks one of the seven counter keys, or holds
for it a value `strconv.Atoi` rejects (the empty string among them),
`GetStatsForTube` produces no record: it returns an error or panics, and never
puts a zero in the place of the counter. -/
theorem GetStatsForTube_no_silent_zero {σ : Type} (c : Conn σ) (tube : String) (st st1 : σ)
    (s : Snapshot) (k : String)
    (hfetch : c.Stats tube st = (.ok s, st1))
    (hk : k ∈ counterKeys)
    (hbad : BadCounter s k) :
    ¬ ∃ v, (GetStatsForTube c tube st).1 = .ok v := by
  rintro ⟨v, hv⟩
  simp only [GetStatsForTube, hfetch] at hv
  obtain ⟨hname, -⟩ := statsOfSnapshot_ok hv
  obtain ⟨e, he⟩ := firstBadCounter_isSome_of_bad s k hk hbad
  have h := statsOfSnapshot_firstBad tube s hname
  rw [he] at h
  rw [h] at hv
  cases hv

theorem GetStatsForTube_no_silent_zero_witness :
    ¬ ∃ v, (GetStatsForTube oddConn "jobs" []).1 = .ok v :=
  GetStatsForTube_no_silent_zero oddConn "jobs" [] ["stats-tube jobs"]
    (snapshotOf "jobs" "0" "0" "" "0" "0" "0" "0") "current-jobs-ready"
    (by decide) (by decide) (Or.inr ⟨"", _, by decide, Atoi_empty⟩)

/-! ## Listing -/

/-- C13. When listing the tubes fails, `GetStats` returns that very error and
no table, and the broker is left in the state right after the listing request:
no snapshot is fetched. -/
theorem GetStats_list_error {σ : Type} (c : Conn σ) (st st1 : σ) (e : Error)
    (hlist : c.ListTubes st = (.error e, st1)) :
    GetStats c st = (.err e, st1) := by
  simp [GetStats, hlist]

theorem GetStats_list_error_witness :
    GetStats downConn [] = (.err (.broker "EOF"), ["list-tubes"]) :=
  GetStats_list_error downConn [] ["list-tubes"] (.broker "EOF") (by decide)

/-- C14. When listing succeeds and every listed tube, requested in list order,
is fetched and parsed successfully, `GetStats` returns a table whose keys are
exactly the listed tube names, each once, and which maps every tube to the
record `GetStatsForTube` returned for it (for a name listed more than once, by
the call for its last occurrence, which overwrites the earlier entries). -/
theorem GetStats_table {σ : Type} (c : Conn σ) (st st1 st2 : σ) (tubes : List String)
    (hlist : c.ListTubes st = (.ok tubes, st1))
    (hrun : FetchedAll c tubes st1 st2) :
    ∃ m, GetStats c st = (.ok m, st2) ∧
      (∀ k, k ∈ m.map Prod.fst ↔ k ∈ tubes) ∧
      (m.map Prod.fst).Nodup ∧
      (∀ pre t post, tubes = pre ++ t :: post → t ∉ post →
        ∃ sp v sq, FetchedAll c pre st1 sp ∧
          GetStatsForTube c t sp = (.ok v, sq) ∧ m.lookup t = some v) := by
  obtain ⟨m, hm, hkeys, hnodup, -, hlast⟩ := collectTubes_ok c tubes [] st1 st2 hrun
  refine ⟨m, by simp [GetStats, hlist, hm], ?_, hnodup (by simp), hlast⟩
  intro k
  rw [hkeys]
  simp

theorem GetStats_table_witness :
    ∃ m, GetStats flakyConn [] =
        (.ok m, ["list-tubes", "stats-tube default", "stats-tube urgent-jobs"]) ∧
      (∀ k, k ∈ m.map Prod.fst ↔ k ∈ ["default", "urgent-jobs"]) ∧
      (m.map Prod.fst).Nodup ∧
      (∀ pre t post, ["default", "urgent-jobs"] = pre ++ t :: post → t ∉ post →
        ∃ sp v sq, FetchedAll flakyConn pre ["list-tubes"] sp ∧
          GetStatsForTube flakyConn t sp = (.ok v, sq) ∧ m.lookup t = some v) :=
  GetStats_table flakyConn [] ["list-tubes"]
    ["list-tubes", "stats-tube default", "stats-tube urgent-jobs"]
    ["default", "urgent-jobs"] (by decide)
    ⟨defaultStats, ["list-tubes", "stats-tube default"], by decide,
      urgentStats, ["list-tubes", "stats-tube default", "stats-tube urgent-jobs"],
      by decide, rfl⟩

/-! ## Printing and running -/

/-- C15. When `GetStats` returns a table, `PrintStats` prints the rendering of a
table with the header Name, Buried, Delayed, Ready, Reserved, Urgent, Waiting,
Total and one row per entry of the collected table, each row being
`buildLineFromTubeStats` of the entry: as many rows as tubes, every row with
eight cells, as many as the header. -/
theorem PrintStats_table {σ : Type} (c : Conn σ) (P : Styles)
    (order : StatsTable → List (String × TubeStats)) (Render : Table → String)
    (st st1 : σ) (stats : StatsTable)
    (horder : IsRangeOrder order)
    (hstats : GetStats c st = (.ok stats, st1)) :
    PrintStats c P order Render st
        = (.ok (), st1, [Render (tableOfStats P order stats)]) ∧
      (tableOfStats P order stats).header
        = ["Name", "Buried", "Delayed", "Ready", "Reserved", "Urgent", "Waiting", "Total"] ∧
      (tableOfStats P order stats).rows.Perm
        (stats.map fun ts => buildLineFromTubeStats P ts.1 ts.2) ∧
      (tableOfStats P order stats).rows.length = stats.length ∧
      ∀ r ∈ (tableOfStats P order stats).rows,
        r.length = 8 ∧ r.length = (tableOfStats P order stats).header.length := by
  refine ⟨by simp [PrintStats, hstats], tableOfStats_header P order stats, ?_, ?_, ?_⟩
  · rw [tableOfStats_rows]
    exact (horder stats).map _
  · rw [tableOfStats_rows, List.length_map]
    exact (horder stats).length_eq
  · intro r hr
    rw [tableOfStats_rows, List.mem_map] at hr
    obtain ⟨ts, -, rfl⟩ := hr
    rw [tableOfStats_header]
    exact ⟨rfl, rfl⟩

theorem PrintStats_table_witness :
    PrintStats demoConn markStyles id renderBars []
        = (.ok (), ["list-tubes", "stats-tube default", "stats-tube urgent-jobs"],
            [renderBars (tableOfStats markStyles id demoTable)]) ∧
      (tableOfStats markStyles id demoTable).header
        = ["Name", "Buried", "Delayed", "Ready", "Reserved", "Urgent", "Waiting", "Total"] ∧
      (tableOfStats markStyles id demoTable).rows.Perm
        (demoTable.map fun ts => buildLineFromTubeStats markStyles ts.1 ts.2) ∧
      (tableOfStats markStyles id demoTable).rows.length = demoTable.length ∧
      ∀ r ∈ (tableOfStats markStyles id demoTable).rows,
        r.length = 8 ∧ r.length = (tableOfStats markStyles id demoTable).header.length :=
  PrintStats_table demoConn markStyles id renderBars []
    ["list-tubes", "stats-tube default", "stats-tube urgent-jobs"] demoTable
    (fun m => List.Perm.refl m) (by decide)

/-- C16. An error stops everything after it and comes out as it is: when
`GetStats` returns an error, `PrintStats` returns that error and prints
nothing; when `Init` returns an error, `Execute` returns it without a
connection and without output, so `PrintStats` is not run; when `Init`
succeeds and `PrintStats` returns an error, `Execute` returns that error; and
`Execute` returns no error exactly when both `Init` and `PrintStats` do. -/
theorem Execute_errors {σ : Type} (Dial : String → Except Error σ) (c : Conn σ) (P : Styles)
    (order : StatsTable → List (String × TubeStats)) (Render : Table → String)
    (Host : String) (args : List String) (st st1 : σ) (e : Error) (out : List String) :
    (GetStats c st = (.err e, st1) →
        PrintStats c P order Render st = (.err e, st1, [])) ∧
      (Init Dial Host = .error e →
        Execute Dial c P order Render Host args = (.err e, none, [])) ∧
      (Init Dial Host = .ok st → PrintStats c P order Render st = (.err e, st1, out) →
        Execute Dial c P order Render Host args = (.err e, some st1, out)) ∧
      ((∃ r, Execute Dial c P order Render Host args = (.ok (), r)) ↔
        ∃ st0 r, Init Dial Host = .ok st0 ∧
          PrintStats c P order Render st0 = (.ok (), r)) := by
  refine ⟨?_, ?_, ?_, ?_⟩
  · intro h
    simp [PrintStats, h]
  · intro h
    simp [Execute, h]
  · intro h1 h2
    simp [Execute, h1, h2]
  · unfold Execute
    cases hi : Init Dial Host with
    | error e0 => simp
    | ok st0 =>
      rcases hp : PrintStats c P order Render st0 with ⟨o, s2, out2⟩
      cases o <;> simp [hp]

theorem Execute_errors_witness :
    PrintStats downConn markStyles id renderBars []
        = (.err (.broker "EOF"), ["list-tubes"], []) ∧
      Execute dialRefused demoConn markStyles id renderBars "localhost:11300" []
        = (.err (.broker "connection refused"), none, []) ∧
      Execute dialOk downConn markStyles id renderBars "localhost:11300" []
        = (.err (.broker "EOF"), some ["list-tubes"], []) :=
  ⟨(Execute_errors dialOk downConn markStyles id renderBars "localhost:11300" []
      [] ["list-tubes"] (.broker "EOF") []).1 (by decide),
   (Execute_errors dialRefused demoConn markStyles id renderBars "localhost:11300" []
      [] [] (.broker "connection refused") []).2.1 (by decide),
   (Execute_errors dialOk downConn markStyles id renderBars "localhost:11300" []
      [] ["list-tubes"] (.broker "EOF") []).2.2.1 (by decide) (by decide)⟩

/-! ## Printing and parsing back -/

/-- C17. For every tube name and every record of `int` fields, a snapshot that
names the tube and holds under each counter key the `strconv.Itoa` string of
the matching field is parsed by `GetStatsForTube` back to exactly that record,
with no error. -/
theorem GetStatsForTube_roundtrip {σ : Type} (c : Conn σ) (tube : String) (st st1 : σ)
    (s : Snapshot) (v : TubeStats)
    (hrange : v.InRange)
    (hfetch : c.Stats tube st = (.ok s, st1))
    (hs : s.Prints tube v) :
    GetStatsForTube c tube st = (.ok v, st1) := by
  obtain ⟨r1, r2, r3, r4, r5, r6, r7⟩ := hrange
  obtain ⟨hname, h1, h2, h3, h4, h5, h6, h7⟩ := hs
  have c1 := mustConvertToInt_of_hasCounter ⟨_, h1, Atoi_Itoa _ r1⟩
  have c2 := mustConvertToInt_of_hasCounter ⟨_, h2, Atoi_Itoa _ r2⟩
  have c3 := mustConvertToInt_of_hasCounter ⟨_, h3, Atoi_Itoa _ r3⟩
  have c4 := mustConvertToInt_of_hasCounter ⟨_, h4, Atoi_Itoa _ r4⟩
  have c5 := mustConvertToInt_of_hasCounter ⟨_, h5, Atoi_Itoa _ r5⟩
  have c6 := mustConvertToInt_of_hasCounter ⟨_, h6, Atoi_Itoa _ r6⟩
  have c7 := mustConvertToInt_of_hasCounter ⟨_, h7, Atoi_Itoa _ r7⟩
  simp [GetStatsForTube, hfetch, statsOfSnapshot, hname, Outcome.bind, c1, c2, c3, c4, c5,
    c6, c7]

theorem GetStatsForTube_roundtrip_witness :
    GetStatsForTube oddConn "default" [] =
      (.ok { JobsBuried := -3, JobsDelayed := 2, JobsReady := 5, JobsReserved := 0,
             JobsUrgent := 1, Waiting := 3, TotalJobs := 8 }, ["stats-tube default"]) :=
  GetStatsForTube_roundtrip oddConn "default" [] ["stats-tube default"]
    (snapshotOf "default" "-3" "2" "5" "0" "1" "3" "8")
    { JobsBuried := -3, JobsDelayed := 2, JobsReady := 5, JobsReserved := 0,
      JobsUrgent := 1, Waiting := 3, TotalJobs := 8 }
    (by unfold TubeStats.InRange InIntRange; norm_num) (by decide)
    (by unfold Snapshot.Prints; decide)

/-! ## The number is never lost -/

/-- C18, as stated, fails at the smallest width: for `addStyle(-7, -2^63, High)`
no style is applied (the value is negative), yet the subtraction wraps around
to `2^63 - 2` and `strings.Repeat` is asked for that many spaces (more than a
machine can allocate: the Go call panics); the length of the cell is not
`max(width, len)`, which is 2. -/
theorem addStyle_length_underflow :
    subLen (-(2 : Int) ^ 63) (Itoa (-7)).length = 2 ^ 63 - 2 ∧
      ((addStyle markStyles (-7) (-(2 : Int) ^ 63) HighSeverity).length : Int)
        ≠ max (-(2 : Int) ^ 63) ((Itoa (-7)).length : Int) := by
  have h7 : (Itoa (-7)).length = 2 := by decide
  have h1 : -(2 : Int) ^ 63 - ((Itoa (-7)).length : Int) < -(2 : Int) ^ 63 := by
    rw [h7]
    norm_num
  have h2 : -(2 : Int) ^ 64 < -(2 : Int) ^ 63 - ((Itoa (-7)).length : Int) := by
    rw [h7]
    norm_num
  have hlen := addStyle_underflow_length markStyles (-7) (-(2 : Int) ^ 63) HighSeverity h1 h2
    (Or.inl (by decide))
  refine ⟨?_, ?_⟩
  · rw [subLen_wrapped _ _ h1, h7]
    norm_num
  · rw [hlen, h7]
    norm_num

/-- C18, amended. For every value and severity and every width for which
`width - len` does not fall below `-2^63`: with styles whose `Paint` keeps the
painted text inside its result, the cell contains the whole decimal
representation of the value. When the value is not positive, or the severity
is `LowSeverity`, or the decimal representation is at least as long as the
width, no style is applied and the cell is `max width len` characters long. A
negative value is written with its minus sign and is never painted. -/
theorem addStyle_keeps_number (P : Styles) (i l severity : Int)
    (hl : -(2 : Int) ^ 63 ≤ l - ((Itoa i).length : Int))
    (hHigh : ∀ t, Contains (P.HighSeverityStyle t) t)
    (hNormal : ∀ t, Contains (P.NormalSeverityStyle t) t) :
    Contains (addStyle P i l severity) (Itoa i) ∧
      (i ≤ 0 ∨ severity = LowSeverity ∨ l ≤ ((Itoa i).length : Int) →
        addStyle P i l severity = rightPad (Itoa i) l ∧
          ((addStyle P i l severity).length : Int) = max l ((Itoa i).length : Int)) ∧
      (i < 0 → Itoa i = "-" ++ Itoa (-i) ∧ addStyle P i l severity = rightPad (Itoa i) l) := by
  have hplain : i ≤ 0 ∨ severity = LowSeverity ∨ l ≤ ((Itoa i).length : Int) →
      addStyle P i l severity = rightPad (Itoa i) l := by
    intro h
    rw [addStyle_cases _ _ _ _ hl]
    rcases h with h | h | h
    · have h0 : ¬ 0 < i := by omega
      simp [h0]
    · simp [h, LowSeverity, HighSeverity, NormalSeverity]
    · have h0 : ¬ ((Itoa i).length : Int) < l := by omega
      simp [h0]
  refine ⟨?_, fun h => ⟨hplain h, ?_⟩, fun h => ⟨Itoa_neg i h, hplain (Or.inl (by omega))⟩⟩
  · rw [addStyle_cases _ _ _ _ hl]
    split
    · exact List.IsInfix.trans (rightPad_contains _ _) (hHigh _)
    · split
      · exact List.IsInfix.trans (rightPad_contains _ _) (hNormal _)
      · exact rightPad_contains _ _
  · rw [hplain h]
    exact rightPad_length _ _

theorem addStyle_keeps_number_witness :
    Contains (addStyle markStyles 5 10 HighSeverity) (Itoa 5) ∧
      (addStyle markStyles (-7) 10 HighSeverity = rightPad (Itoa (-7)) 10 ∧
        ((addStyle markStyles (-7) 10 HighSeverity).length : Int)
          = max 10 ((Itoa (-7)).length : Int)) ∧
      (Itoa (-7) = "-" ++ Itoa (- -7) ∧
        addStyle markStyles (-7) 10 HighSeverity = rightPad (Itoa (-7)) 10) :=
  ⟨(addStyle_keeps_number markStyles 5 10 HighSeverity (by decide)
      (fun t => ⟨"<H>".data, "</>".data, by simp [markStyles]⟩)
      (fun t => ⟨"<N>".data, "</>".data, by simp [markStyles]⟩)).1,
   (addStyle_keeps_number markStyles (-7) 10 HighSeverity (by decide)
      (fun t => ⟨"<H>".data, "</>".data, by simp [markStyles]⟩)
      (fun t => ⟨"<N>".data, "</>".data, by simp [markStyles]⟩)).2.1 (Or.inl (by decide)),
   (addStyle_keeps_number markStyles (-7) 10 HighSeverity (by decide)
      (fun t => ⟨"<H>".data, "</>".data, by simp [markStyles]⟩)
      (fun t => ⟨"<N>".data, "</>".data, by simp [markStyles]⟩)).2.2 (by decide)⟩

end Beanstool
